import Mathlib

/-!
Shallow embedding of `email_parser.py` (recitalAI/email_parser): a dual-format
email normalizer.  Pure Python functions become Lean functions; exceptions are
modelled with `Except PyErr`; the in-place mutation of the `mail_data`
dictionary becomes explicit record passing.  External collaborators from the
Python standard library (`email.utils.parsedate_to_datetime`, `parseaddr`,
`getaddresses`, codecs, `mimetypes.guess_type`, `os.path.splitext`) and the
`extract_msg` library are modelled as executable Lean functions whose doc
comments say what they stand for.
-/

/-- Model of Python exceptions that can arise in the parser: the source raises
`ValueError` (dispatcher, date parsing), and decoding can raise
`UnicodeDecodeError`, `LookupError` (unknown codec), `AttributeError`
(`None.strip()`), `RuntimeError` and `NotImplementedError`. -/
inductive PyErr where
  | valueError (msg : String)
  | runtimeError (msg : String)
  | notImplementedError (msg : String)
  | unicodeDecodeError (msg : String)
  | lookupError (msg : String)
  | attributeError (msg : String)
deriving DecidableEq

/-- What `print(e)` shows for an exception: its message (model of `str(e)`). -/
def pyErrMessage : PyErr → String
  | PyErr.valueError m => m
  | PyErr.runtimeError m => m
  | PyErr.notImplementedError m => m
  | PyErr.unicodeDecodeError m => m
  | PyErr.lookupError m => m
  | PyErr.attributeError m => m

/-- Model of a parsed `datetime` value as produced by
`email.utils.parsedate_to_datetime`. -/
structure Timestamp where
  day : Nat
  month : Nat
  year : Nat
  hour : Nat
  minute : Nat
  second : Nat
deriving DecidableEq

/-! String helpers written by structural recursion over the character list, so
that every definition evaluates inside the kernel. -/

def charIsSpace (c : Char) : Bool :=
  c == ' ' || c == '\t' || c == '\n' || c == '\r' || c == '\x0b' || c == '\x0c'

def trimChars (cs : List Char) : List Char :=
  ((cs.dropWhile charIsSpace).reverse.dropWhile charIsSpace).reverse

/-- Model of `str.strip()` with no argument. -/
def strTrim (s : String) : String :=
  String.mk (trimChars s.toList)

def splitOnCharAux (sep : Char) : List Char → List Char → List (List Char)
  | [], acc => [acc.reverse]
  | c :: rest, acc =>
    if c == sep then acc.reverse :: splitOnCharAux sep rest []
    else splitOnCharAux sep rest (c :: acc)

/-- Model of `str.split(sep)` for a one-character separator (empty pieces are
kept, as in Python). -/
def splitOnChar (sep : Char) (s : String) : List String :=
  (splitOnCharAux sep s.toList []).map String.mk

/-- Model of `str.lower()`. -/
def strLower (s : String) : String :=
  String.mk (s.toList.map Char.toLower)

def isDigitStr (s : String) : Bool :=
  decide (0 < s.length) && s.toList.all Char.isDigit

def natOfDigits (s : String) : Nat :=
  s.toList.foldl (fun a c => a * 10 + (c.toNat - 48)) 0

def month_names : List (String × Nat) :=
  [("jan", 1), ("feb", 2), ("mar", 3), ("apr", 4), ("may", 5), ("jun", 6),
   ("jul", 7), ("aug", 8), ("sep", 9), ("oct", 10), ("nov", 11), ("dec", 12)]

def monthLookup (s : String) : Option Nat :=
  (month_names.find? (fun p => p.1 == strLower s)).map (fun p => p.2)

def parseTimeOfDay (t : String) : Option (Nat × Nat × Nat) :=
  match splitOnChar ':' t with
  | [h, m] =>
      if isDigitStr h && isDigitStr m then some (natOfDigits h, natOfDigits m, 0) else none
  | [h, m, s] =>
      if isDigitStr h && isDigitStr m && isDigitStr s then
        some (natOfDigits h, natOfDigits m, natOfDigits s)
      else none
  | _ => none

/-- Model of the external collaborator `email.utils.parsedate_to_datetime`:
parses an RFC-2822-style date string (optional weekday, then
day / month-name / year / `H:M[:S]`, trailing zone ignored) into a timestamp,
and RAISES (here: returns `Except.error`) when the string is missing or
unparseable — in particular on the empty string. -/
def parsedate_to_datetime (s : String) : Except PyErr Timestamp :=
  let toks0 := (splitOnChar ' ' s).filter (fun t => t != "")
  let toks :=
    match toks0 with
    | t :: rest => if t.toList.getLast? == some ',' then rest else toks0
    | [] => []
  match toks with
  | day :: mon :: year :: time :: _ =>
      match monthLookup mon, parseTimeOfDay time with
      | some m, some hms =>
          if isDigitStr day && isDigitStr year then
            Except.ok
              { day := natOfDigits day, month := m, year := natOfDigits year,
                hour := hms.1, minute := hms.2.1, second := hms.2.2 }
          else Except.error (PyErr.valueError ("Invalid date value or format \"" ++ s ++ "\""))
      | _, _ => Except.error (PyErr.valueError ("Invalid date value or format \"" ++ s ++ "\""))
  | _ => Except.error (PyErr.valueError ("Invalid date value or format \"" ++ s ++ "\""))

def stripQuotes (s : String) : String :=
  let cs := s.toList
  if 2 ≤ cs.length ∧ cs.head? = some '"' ∧ cs.getLast? = some '"' then
    String.mk ((cs.drop 1).dropLast)
  else s

/-- Model of the external collaborator `email.utils.parseaddr`: splits one
address-bearing string into a (display-name, smtp-address) pair.  `"A <a@x>"`
gives `("A", "a@x")`; a bare address gives an empty display name. -/
def parseaddr (s : String) : String × String :=
  let cs := s.toList
  if cs.contains '<' then
    let name := stripQuotes (strTrim (String.mk (cs.takeWhile (fun c => c != '<'))))
    let rest := (cs.dropWhile (fun c => c != '<')).drop 1
    (name, String.mk (rest.takeWhile (fun c => c != '>')))
  else ("", strTrim s)

/-- Model of the external collaborator `email.utils.getaddresses`: each header
value may carry several comma-separated addresses; all are parsed in order. -/
def getaddresses (values : List String) : List (String × String) :=
  ((values.map (fun v =>
    ((splitOnChar ',' v).filter (fun a => strTrim a != "")).map parseaddr))).flatten

/-- Headers as an ordered association list, the shape exposed by both
`email.message.Message` and `extract_msg`'s `msg.header`. -/
abbrev Headers : Type := List (String × String)

/-- Model of `Message.get(key, default)`: first header whose name matches
case-insensitively, else the default. -/
def hget (hs : Headers) (key d : String) : String :=
  match hs.find? (fun p => strLower p.1 == strLower key) with
  | some p => p.2
  | none => d

/-- Model of `Message.get_all(key, [])`: every matching header value, in order. -/
def hgetAll (hs : Headers) (key : String) : List String :=
  (hs.filter (fun p => strLower p.1 == strLower key)).map (fun p => p.2)

/-- `received_on` is typed `Union[datetime, str]` in the source: either a
parsed timestamp or the initial placeholder string. -/
inductive ReceivedOn where
  | dt (t : Timestamp)
  | str (s : String)
deriving DecidableEq

/-- The `Email` TypedDict of the source.  The `sender`/`author` identity
dictionaries (`{"name": ..., "smtp_address": ...}`) are association lists;
attachment binaries are `Option` because `get_payload(decode=True)` yields
`None` on a multipart container. -/
structure Email where
  subject : String
  body : String
  received_on : ReceivedOn
  sender : List (String × String)
  author : List (String × String)
  «to» : List (List (String × String))
  cc : List (List (String × String))
  attachment_names : List String
  attachment_binaries : List (Option (List Nat))
  attachment_types : List String
deriving DecidableEq

/-- The fresh `mail_data` dictionary built in `MailAdapter.__init__`. -/
def initial_mail_data : Email :=
  { subject := "", body := "", received_on := ReceivedOn.str "",
    sender := [], author := [], «to» := [], cc := [],
    attachment_names := [], attachment_binaries := [], attachment_types := [] }

/-! ## Codecs (models of Python `bytes.decode` / `str.strip`) -/

def asciiIsSpaceByte (b : Nat) : Bool :=
  b == 32 || b == 9 || b == 10 || b == 13 || b == 11 || b == 12

/-- Model of `bytes.strip()` with no argument: remove leading and trailing
ASCII whitespace bytes. -/
def bytesStrip (bs : List Nat) : List Nat :=
  ((bs.dropWhile asciiIsSpaceByte).reverse.dropWhile asciiIsSpaceByte).reverse

/-- Model of `str.strip("\x00")`: remove leading and trailing NUL characters. -/
def stripNulStr (s : String) : String :=
  String.mk (((s.toList.dropWhile (fun c => c == '\x00')).reverse.dropWhile
      (fun c => c == '\x00')).reverse)

/-- Strict `ascii` decode: succeeds exactly when every byte is below 128. -/
def ascii_opt (bs : List Nat) : Option String :=
  if bs.all (fun b => decide (b < 128)) then some (String.mk (bs.map Char.ofNat)) else none

/-- Strict `utf-8` decode of a byte list: standard validation (continuation
bytes, overlong forms, surrogates and values above U+10FFFF rejected). -/
def utf8decodeList : List Nat → Option (List Char)
  | [] => some []
  | b :: rest =>
    if b < 0x80 then (utf8decodeList rest).map (fun cs => Char.ofNat b :: cs)
    else if b < 0xC2 then none
    else if b < 0xE0 then
      match rest with
      | b1 :: rest2 =>
        if 0x80 ≤ b1 ∧ b1 < 0xC0 then
          (utf8decodeList rest2).map (fun cs =>
            Char.ofNat ((b - 0xC0) * 64 + (b1 - 0x80)) :: cs)
        else none
      | [] => none
    else if b < 0xF0 then
      match rest with
      | b1 :: b2 :: rest3 =>
        if (0x80 ≤ b1 ∧ b1 < 0xC0) ∧ (0x80 ≤ b2 ∧ b2 < 0xC0)
            ∧ (b ≠ 0xE0 ∨ 0xA0 ≤ b1) ∧ (b ≠ 0xED ∨ b1 < 0xA0) then
          (utf8decodeList rest3).map (fun cs =>
            Char.ofNat ((b - 0xE0) * 4096 + (b1 - 0x80) * 64 + (b2 - 0x80)) :: cs)
        else none
      | _ => none
    else if b < 0xF5 then
      match rest with
      | b1 :: b2 :: b3 :: rest4 =>
        if (0x80 ≤ b1 ∧ b1 < 0xC0) ∧ (0x80 ≤ b2 ∧ b2 < 0xC0) ∧ (0x80 ≤ b3 ∧ b3 < 0xC0)
            ∧ (b ≠ 0xF0 ∨ 0x90 ≤ b1) ∧ (b ≠ 0xF4 ∨ b1 < 0x90) then
          (utf8decodeList rest4).map (fun cs =>
            Char.ofNat ((b - 0xF0) * 262144 + (b1 - 0x80) * 4096
              + (b2 - 0x80) * 64 + (b3 - 0x80)) :: cs)
        else none
      | _ => none
    else none

def utf8_opt (bs : List Nat) : Option String :=
  (utf8decodeList bs).map String.mk

/-- `utf-8-sig`: an optional leading BOM `EF BB BF` is removed first. -/
def stripBOM : List Nat → List Nat
  | 239 :: 187 :: 191 :: rest => rest
  | bs => bs

def utf8sig_opt (bs : List Nat) : Option String :=
  utf8_opt (stripBOM bs)

/-- `latin-1` maps every byte to the code point of the same value; it never
fails on a byte string. -/
def latin1_opt (bs : List Nat) : Option String :=
  some (String.mk (bs.map Char.ofNat))

/-- The `cp1252` remapping of the `0x80`–`0x9F` range; the five bytes
`0x81 0x8D 0x8F 0x90 0x9D` are undefined and make strict decoding fail. -/
def cp1252_c1_map : List (Nat × Nat) :=
  [(0x80, 0x20AC), (0x82, 0x201A), (0x83, 0x0192), (0x84, 0x201E), (0x85, 0x2026),
   (0x86, 0x2020), (0x87, 0x2021), (0x88, 0x02C6), (0x89, 0x2030), (0x8A, 0x0160),
   (0x8B, 0x2039), (0x8C, 0x0152), (0x8E, 0x017D), (0x91, 0x2018), (0x92, 0x2019),
   (0x93, 0x201C), (0x94, 0x201D), (0x95, 0x2022), (0x96, 0x2013), (0x97, 0x2014),
   (0x98, 0x02DC), (0x99, 0x2122), (0x9A, 0x0161), (0x9B, 0x203A), (0x9C, 0x0153),
   (0x9E, 0x017E), (0x9F, 0x0178)]

def cp1252Char (b : Nat) : Option Char :=
  if b < 0x80 ∨ (0xA0 ≤ b ∧ b < 256) then some (Char.ofNat b)
  else
    match cp1252_c1_map.find? (fun p => p.1 == b) with
    | some p => some (Char.ofNat p.2)
    | none => none

def cp1252_opt (bs : List Nat) : Option String :=
  (bs.mapM cp1252Char).map String.mk

/-- Model of `bytes.decode("ascii", errors="ignore")`: undecodable bytes are
discarded; this decode always succeeds. -/
def ascii_ignore_decode (bs : List Nat) : String :=
  String.mk ((bs.filter (fun b => decide (b < 128))).map Char.ofNat)

/-- Wraps a strict codec result: failure is a `UnicodeDecodeError`. -/
def strictResult (codec : String) : Option String → Except PyErr String
  | some s => Except.ok s
  | none => Except.error (PyErr.unicodeDecodeError ("codec " ++ codec ++ " cannot decode"))

/-- Model of `bytes.decode(codec)` for the codecs this program uses; an
unknown codec name raises `LookupError` (which the source never catches). -/
def pyDecode (codec : String) (bs : List Nat) : Except PyErr String :=
  if codec = "ascii" then strictResult codec (ascii_opt bs)
  else if codec = "utf-8" then strictResult codec (utf8_opt bs)
  else if codec = "utf-8-sig" then strictResult codec (utf8sig_opt bs)
  else if codec = "latin-1" then strictResult codec (latin1_opt bs)
  else if codec = "cp1252" then strictResult codec (cp1252_opt bs)
  else Except.error (PyErr.lookupError ("unknown encoding: " ++ codec))

/-- The module-level `ENCODINGS` tuple of the source, in its exact order. -/
def ENCODINGS : List String := ["ascii", "utf-8", "utf-8-sig", "latin-1", "cp1252"]

/-! ## The parsed message model (what `email.message_from_binary_file` yields) -/

/-- The per-part data the source reads off a parsed MIME part through the
`email.message.Message` accessors: its headers, `get_content_maintype()`,
`get_content_type()`, `get_content_disposition()`, `get_params()` and
`get_filename()`. -/
structure PartInfo where
  headers : Headers
  maintype : String
  content_type : String
  disposition : Option String
  params : List (String × String)
  filename : Option String
deriving DecidableEq

/-- A parsed MIME message: a leaf part carrying a decoded payload
(`get_payload(decode=True)`), or a multipart container of sub-messages. -/
inductive Msg where
  | leaf (info : PartInfo) (payload : List Nat)
  | multi (info : PartInfo) (parts : List Msg)

def Msg.minfo : Msg → PartInfo
  | Msg.leaf i _ => i
  | Msg.multi i _ => i

/-- Model of `Message.is_multipart()`. -/
def Msg.is_multipart : Msg → Bool
  | Msg.leaf _ _ => false
  | Msg.multi _ _ => true

/-- Model of `Message.get_payload(decode=True)`: bytes on a leaf part, `None`
on a multipart container. -/
def Msg.payloadDecoded : Msg → Option (List Nat)
  | Msg.leaf _ p => some p
  | Msg.multi _ _ => none

mutual

/-- Model of `Message.walk()`: depth-first, the node itself first. -/
def Msg.walk : Msg → List Msg
  | Msg.leaf i p => [Msg.leaf i p]
  | Msg.multi i ps => Msg.multi i ps :: walkParts ps

def walkParts : List Msg → List Msg
  | [] => []
  | m :: ms => Msg.walk m ++ walkParts ms

end

/-! ## `get_charset` and body extraction -/

/-- `get_charset` of the source, over the part's `get_params()` list: the
value at index 1 (`part.get_params()[1][1]`), with the `IndexError` fallback
returning `"utf-8"`. -/
def get_charset (part_params : List (String × String)) : String :=
  match part_params.get? 1 with
  | some kv => kv.2
  | none => "utf-8"

/-- The body-part condition of the walk loop in `extract_body_from_eml`:
`main_type == "text" and content_disposition != "attachment"`. -/
def isBodyTextPart (p : Msg) : Bool :=
  p.minfo.maintype == "text" && !(p.minfo.disposition == some "attachment")

/-- The expression `part.get_payload(decode=True).strip().decode(charset)`
with `charset = get_charset(part)`; calling `.strip()` on the `None` payload
of a multipart container raises `AttributeError`. -/
def decodePartPayload (p : Msg) : Except PyErr String :=
  match p.payloadDecoded with
  | none => Except.error (PyErr.attributeError "NoneType object has no attribute strip")
  | some bs => pyDecode (get_charset p.minfo.params) (bytesStrip bs)

/-- The `for part in message.walk()` loop of `extract_body_from_eml`: `body`
is overwritten by every matching part (last-wins). -/
def emlBodyLoop : List Msg → String → Except PyErr String
  | [], body => Except.ok body
  | p :: rest, body =>
    if isBodyTextPart p then
      match decodePartPayload p with
      | Except.ok s => emlBodyLoop rest s
      | Except.error e => Except.error e
    else emlBodyLoop rest body

/-- `extract_body_from_eml` of the source. -/
def extract_body_from_eml (message : Msg) : Except PyErr String :=
  if message.is_multipart then emlBodyLoop message.walk ""
  else decodePartPayload message

/-! ## Header metadata and attachments (`.eml` side) -/

/-- `extract_address_list_from_eml` of the source: the list assigned to
`mail_data[key]`, one `{"name", "smtp_address"}` dictionary per address. -/
def extract_address_list_from_eml (hs : Headers) (key : String) :
    List (List (String × String)) :=
  (getaddresses (hgetAll hs key)).map (fun p => [("name", p.1), ("smtp_address", p.2)])

/-- `extract_metadata_from_eml_header` of the source.  `parsedate_to_datetime`
is applied to `message.get("date", "")` and its exception propagates; then
subject, author/sender (one shared dictionary built from `parseaddr` of the
`From` header) and the to/cc lists are stored. -/
def extract_metadata_from_eml_header (hs : Headers) (mail_data : Email) :
    Except PyErr Email :=
  match parsedate_to_datetime (hget hs "date" "") with
  | Except.error e => Except.error e
  | Except.ok timestamp =>
    let md1 := { mail_data with received_on := ReceivedOn.dt timestamp,
                                subject := hget hs "subject" "" }
    let pr := parseaddr (hget hs "from" "")
    let author_information := [("name", pr.1), ("smtp_address", pr.2)]
    let md2 := { md1 with author := author_information, sender := author_information }
    let md3 := { md2 with «to» := extract_address_list_from_eml hs "to" }
    Except.ok { md3 with cc := extract_address_list_from_eml hs "cc" }

/-- The `for part in message.walk()` loop of `extract_attachments_from_eml`:
parts whose disposition is `"attachment"` are appended to the three
attachment lists, but only when `get_filename()` is not `None`. -/
def emlAttachLoop : List Msg → Email → Email
  | [], md => md
  | p :: rest, md =>
    if p.minfo.disposition == some "attachment" then
      let content_type := p.minfo.content_type
      let bin_data := p.payloadDecoded
      match p.minfo.filename with
      | none => emlAttachLoop rest md
      | some name =>
        emlAttachLoop rest
          { md with attachment_names := md.attachment_names ++ [name],
                    attachment_binaries := md.attachment_binaries ++ [bin_data],
                    attachment_types := md.attachment_types ++ [content_type] }
    else emlAttachLoop rest md

/-- `extract_attachments_from_eml` of the source. -/
def extract_attachments_from_eml (message : Msg) (mail_data : Email) : Email :=
  emlAttachLoop message.walk mail_data

/-! ## Adapter dispatch -/

/-- Model of `os.path.splitext`: split off the extension at the rightmost dot
of the basename, provided some non-dot character precedes it there. -/
def splitext (p : String) : String × String :=
  let base :=
    match (splitOnChar '/' p).getLast? with
    | some b => b
    | none => p
  let cs := base.toList
  match (List.range cs.length).reverse.find? (fun i =>
      cs[i]? == some '.' && (cs.take i).any (fun c => c != '.')) with
  | some i =>
      (String.mk (p.toList.take (p.toList.length - (cs.length - i))),
       String.mk (cs.drop i))
  | none => (p, "")

/-- The decoder variants `MailAdapter.__new__` can produce: the two
registered subclasses, or a bare `MailAdapter` when no subclass matches. -/
inductive AdapterKind where
  | eml
  | msg
  | base
deriving DecidableEq

/-- `MailAdapter.__subclasses__()` with each subclass's
`supported_extension`, in definition order (`EmlAdapter`, `MsgAdapter`). -/
def MailAdapter.subclass_extensions : List (String × AdapterKind) :=
  [(".eml", AdapterKind.eml), (".msg", AdapterKind.msg)]

/-- `MailAdapter.__new__`: raises `ValueError` when the file extension is
neither `.eml` nor `.msg`, otherwise picks the subclass whose
`supported_extension` matches (falling back to a bare `MailAdapter`). -/
def MailAdapter_new (filename : String) : Except PyErr AdapterKind :=
  let file_extension := (splitext filename).2
  if file_extension = ".eml" ∨ file_extension = ".msg" then
    match MailAdapter.subclass_extensions.find? (fun p => p.1 == file_extension) with
    | some p => Except.ok p.2
    | none => Except.ok AdapterKind.base
  else
    Except.error (PyErr.valueError ("Unsupported mail extension " ++ file_extension ++ " given."))

/-- The `read_attachments` argument is dynamically typed in Python; this
models the values a caller can pass.  `pyIsTrue` is the `is True` identity
test: only the `True` singleton passes, not truthy values such as `1`. -/
inductive PyVal where
  | pyBool (b : Bool)
  | pyNone
  | pyInt (n : Int)
  | pyStr (s : String)
deriving DecidableEq

def pyIsTrue : PyVal → Bool
  | PyVal.pyBool true => true
  | _ => false

/-! ## `EmlAdapter` -/

/-- `EmlAdapter._decode_from_file`: metadata, then body, then (only when
`read_attachments is True`) attachments; any exception propagates to
`decode`. -/
def EmlAdapter._decode_from_file (message : Msg) (read_attachments : PyVal) :
    Except PyErr Email :=
  match extract_metadata_from_eml_header message.minfo.headers initial_mail_data with
  | Except.error e => Except.error e
  | Except.ok md =>
    match extract_body_from_eml message with
    | Except.error e => Except.error e
    | Except.ok body =>
      let md := { md with body := body }
      let md := if pyIsTrue read_attachments then extract_attachments_from_eml message md else md
      Except.ok md

/-- `EmlAdapter.decode`: `try: return self._decode_from_file(...) except
Exception: return None` — the failure is swallowed silently, so the second
component (what the call prints) is always empty. -/
def EmlAdapter.decode (message : Msg) (read_attachments : PyVal) :
    Option Email × List String :=
  match EmlAdapter._decode_from_file message read_attachments with
  | Except.ok r => (some r, [])
  | Except.error _ => (none, [])

/-! ## `decode_msg_body` and `MsgAdapter` -/

/-- The `for encoding in encodings` loop of `decode_msg_body`: try each codec,
`pass` on `UnicodeDecodeError` only, and fall back to the lossy ascii decode
after the last one. -/
def decode_msg_body_loop (bs : List Nat) : List String → Except PyErr String
  | [] => Except.ok (ascii_ignore_decode bs)
  | e :: rest =>
    match pyDecode e bs with
    | Except.ok s => Except.ok s
    | Except.error (PyErr.unicodeDecodeError _) => decode_msg_body_loop bs rest
    | Except.error err => Except.error err

/-- `decode_msg_body` of the source: a `str` body is returned unchanged, a
`bytes` body goes through the sequential-codec loop. -/
def decode_msg_body (body : Sum String (List Nat)) (encodings : List String) :
    Except PyErr String :=
  match body with
  | Sum.inl s => Except.ok s
  | Sum.inr bs => decode_msg_body_loop bs encodings

/-- Model of the table behind the external collaborator
`mimetypes.guess_type`: extension (with leading dot, lowercased) to MIME
type, covering the common extensions; anything else is unmapped. -/
def mimetypes_types_map : List (String × String) :=
  [(".pdf", "application/pdf"), (".png", "image/png"), (".jpg", "image/jpeg"),
   (".jpeg", "image/jpeg"), (".gif", "image/gif"), (".txt", "text/plain"),
   (".doc", "application/msword"), (".zip", "application/zip"),
   (".csv", "text/csv"), (".html", "text/html")]

/-- Model of `mimetypes.guess_type(name)[0]`: look the lowercased extension up
in the table; `None` when there is no mapping. -/
def guess_type0 (name : String) : Option String :=
  let ext := strLower (splitext name).2
  (mimetypes_types_map.find? (fun p => p.1 == ext)).map (fun p => p.2)

/-- Model of Python `str(x)` applied to `guess_type(name)[0]`: `str(None)` is
the four-character string `"None"`. -/
def pyStrOfOpt : Option String → String
  | some s => s
  | none => "None"

/-- One attachment object exposed by `extract_msg`: `shortFilename` (may be
`None`) and raw `data` bytes. -/
structure MsgAttachment where
  shortFilename : Option String
  data : List Nat
deriving DecidableEq

/-- The object model `extract_msg.Message` exposes to this program: a header
mapping, a nullable body (`str` or `bytes`), and an attachment list. -/
structure MsgFileStruct where
  header : Headers
  body : Option (Sum String (List Nat))
  attachments : List MsgAttachment
deriving DecidableEq

/-- A `.msg` file as handed to the external parser: either malformed (the
`extract_msg.Message` constructor raises) or parsed into its object model. -/
inductive MsgInput where
  | malformed (e : PyErr)
  | parsed (m : MsgFileStruct)
deriving DecidableEq

/-- Model of the external `extract_msg.Message` constructor call
`Message(mail)`. -/
def Message_parse : MsgInput → Except PyErr MsgFileStruct
  | MsgInput.malformed e => Except.error e
  | MsgInput.parsed m => Except.ok m

/-- The `for attachment in message.attachments` loop of
`MsgAdapter._decode_from_file`: only attachments with a non-`None`
`shortFilename` are appended; the content type is
`str(guess_type(name)[0])`. -/
def msgAttachLoop : List MsgAttachment → Email → Email
  | [], md => md
  | a :: rest, md =>
    match a.shortFilename with
    | none => msgAttachLoop rest md
    | some name =>
      let content_type := pyStrOfOpt (guess_type0 name)
      let bin_data := a.data
      msgAttachLoop rest
        { md with attachment_names := md.attachment_names ++ [name],
                  attachment_binaries := md.attachment_binaries ++ [some bin_data],
                  attachment_types := md.attachment_types ++ [content_type] }

/-- `MsgAdapter._decode_from_file`: parse via `extract_msg`, reuse the shared
header-metadata extraction, decode the body when it is not `None` (stripping
NULs), then the attachment loop when `read_attachments is True`. -/
def MsgAdapter._decode_from_file (file : MsgInput) (read_attachments : PyVal) :
    Except PyErr Email :=
  match Message_parse file with
  | Except.error e => Except.error e
  | Except.ok message =>
    match extract_metadata_from_eml_header message.header initial_mail_data with
    | Except.error e => Except.error e
    | Except.ok md =>
      match message.body with
      | none =>
        let md := if pyIsTrue read_attachments then msgAttachLoop message.attachments md else md
        Except.ok md
      | some bo =>
        match decode_msg_body bo ENCODINGS with
        | Except.error e => Except.error e
        | Except.ok s =>
          let md := { md with body := stripNulStr s }
          let md := if pyIsTrue read_attachments then msgAttachLoop message.attachments md else md
          Except.ok md

/-- `MsgAdapter.decode`: like `EmlAdapter.decode` it converts any exception to
`None`, but it first `print`s the exception — the second component holds the
printed lines. -/
def MsgAdapter.decode (file : MsgInput) (read_attachments : PyVal) :
    Option Email × List String :=
  match MsgAdapter._decode_from_file file read_attachments with
  | Except.ok r => (some r, [])
  | Except.error e => (none, [pyErrMessage e])

/-- The caller-side pipeline: construct the adapter for the file's name via
`MailAdapter.__new__`, then call its `decode`.  A dispatcher error propagates;
the contents of the file (already split by format for the model) are only
consumed after dispatch succeeds. -/
def mail_from_file (filename : String) (emlContent : Msg) (msgContent : MsgInput)
    (read_attachments : PyVal) : Except PyErr (Option Email × List String) :=
  match MailAdapter_new filename with
  | Except.error e => Except.error e
  | Except.ok AdapterKind.eml => Except.ok (EmlAdapter.decode emlContent read_attachments)
  | Except.ok AdapterKind.msg => Except.ok (MsgAdapter.decode msgContent read_attachments)
  | Except.ok AdapterKind.base =>
      Except.error (PyErr.notImplementedError "MailAdapter.decode")

/-! ## Concrete sample inputs used by witnesses and counterexamples -/

def rfcDate : String := "Mon, 5 Oct 2020 10:00:00 +0000"

/-- A plain non-attachment text part with utf-8 charset parameters. -/
def textPart (bodyBytes : List Nat) : Msg :=
  Msg.leaf { headers := [], maintype := "text", content_type := "text/plain",
             disposition := none,
             params := [("text/plain", ""), ("charset", "utf-8")],
             filename := none } bodyBytes

/-- Single-part message: `Subject: Hi`, `From: A <a@x.com>`, body `"hello"`. -/
def sampleSimpleEml : Msg :=
  Msg.leaf { headers := [("Date", rfcDate), ("Subject", "Hi"),
                         ("From", "A <a@x.com>"), ("To", "B <b@x.com>")],
             maintype := "text", content_type := "text/plain", disposition := none,
             params := [("text/plain", ""), ("charset", "utf-8")], filename := none }
    [104, 101, 108, 108, 111]

/-- Multipart message with two non-attachment text parts `"first"`, `"second"`. -/
def sampleMultiEml : Msg :=
  Msg.multi { headers := [("Date", rfcDate), ("Subject", "Hi"), ("From", "A <a@x.com>")],
              maintype := "multipart", content_type := "multipart/alternative",
              disposition := none,
              params := [("multipart/alternative", ""), ("boundary", "b")],
              filename := none }
    [textPart [102, 105, 114, 115, 116], textPart [115, 101, 99, 111, 110, 100]]

/-- Like `sampleSimpleEml` but with no `Date` header at all. -/
def sampleNoDateEml : Msg :=
  Msg.leaf { headers := [("Subject", "Hi"), ("From", "A <a@x.com>")],
             maintype := "text", content_type := "text/plain", disposition := none,
             params := [("text/plain", ""), ("charset", "utf-8")], filename := none }
    [104, 101, 108, 108, 111]

/-- An attachment part named `f.pdf`. -/
def attachPartPdf : Msg :=
  Msg.leaf { headers := [], maintype := "application", content_type := "application/pdf",
             disposition := some "attachment", params := [("application/pdf", "")],
             filename := some "f.pdf" } [1, 2, 3]

/-- An attachment part with no resolvable filename. -/
def attachPartNameless : Msg :=
  Msg.leaf { headers := [], maintype := "application",
             content_type := "application/octet-stream",
             disposition := some "attachment",
             params := [("application/octet-stream", "")],
             filename := none } [4, 5]

/-- Multipart message with a text body, a named attachment and a nameless one. -/
def sampleAttachEml : Msg :=
  Msg.multi { headers := [("Date", rfcDate), ("Subject", "Hi"), ("From", "A <a@x.com>")],
              maintype := "multipart", content_type := "multipart/mixed",
              disposition := none,
              params := [("multipart/mixed", ""), ("boundary", "b")],
              filename := none }
    [textPart [104, 101, 108, 108, 111], attachPartPdf, attachPartNameless]

/-- A parsed `.msg` container: NUL-padded ascii body bytes, one attachment with
an unmapped extension, one with no filename, one with a `.pdf` name. -/
def sampleMsgFile : MsgFileStruct :=
  { header := [("Date", rfcDate), ("From", "A <a@x.com>"), ("Subject", "Hi")],
    body := some (Sum.inr [0, 104, 105, 0]),
    attachments := [{ shortFilename := some "weird.zzz", data := [9, 9] },
                    { shortFilename := none, data := [1] },
                    { shortFilename := some "r.pdf", data := [2] }] }

def sampleMsgInput : MsgInput := MsgInput.parsed sampleMsgFile

/-- A parsed `.msg` container whose header has no parseable `Date`. -/
def sampleMsgNoDate : MsgInput :=
  MsgInput.parsed { header := [("From", "A <a@x.com>")], body := none, attachments := [] }

/-! ## Characterization lemmas -/

/-- What one walked part contributes to the three attachment lists of
`extract_attachments_from_eml`: `none` unless its disposition is
`"attachment"` and it has a filename. -/
def emlAttachTriple (p : Msg) : Option (String × Option (List Nat) × String) :=
  if p.minfo.disposition == some "attachment" then
    p.minfo.filename.map (fun n => (n, p.payloadDecoded, p.minfo.content_type))
  else none

/-- What one `extract_msg` attachment contributes to the three lists:
`none` exactly when `shortFilename` is `None`. -/
def msgAttachTriple (a : MsgAttachment) : Option (String × Option (List Nat) × String) :=
  a.shortFilename.map (fun n => (n, some a.data, pyStrOfOpt (guess_type0 n)))

lemma emlAttachLoop_spec (l : List Msg) (md : Email) :
    emlAttachLoop l md = { md with
      attachment_names :=
        md.attachment_names ++ (l.filterMap emlAttachTriple).map (fun t => t.1),
      attachment_binaries :=
        md.attachment_binaries ++ (l.filterMap emlAttachTriple).map (fun t => t.2.1),
      attachment_types :=
        md.attachment_types ++ (l.filterMap emlAttachTriple).map (fun t => t.2.2) } := by
  induction l generalizing md with
  | nil => simp [emlAttachLoop]
  | cons p rest ih =>
    cases hdisp : (p.minfo.disposition == some "attachment") with
    | false => simp [emlAttachLoop, hdisp, emlAttachTriple, List.filterMap_cons, ih]
    | true =>
      cases hname : p.minfo.filename with
      | none => simp [emlAttachLoop, hdisp, hname, emlAttachTriple, List.filterMap_cons, ih]
      | some name =>
        simp [emlAttachLoop, hdisp, hname, emlAttachTriple, List.filterMap_cons, ih,
          List.append_assoc]

lemma msgAttachLoop_spec (l : List MsgAttachment) (md : Email) :
    msgAttachLoop l md = { md with
      attachment_names :=
        md.attachment_names ++ (l.filterMap msgAttachTriple).map (fun t => t.1),
      attachment_binaries :=
        md.attachment_binaries ++ (l.filterMap msgAttachTriple).map (fun t => t.2.1),
      attachment_types :=
        md.attachment_types ++ (l.filterMap msgAttachTriple).map (fun t => t.2.2) } := by
  induction l generalizing md with
  | nil => simp [msgAttachLoop]
  | cons a rest ih =>
    cases hname : a.shortFilename with
    | none => simp [msgAttachLoop, hname, msgAttachTriple, List.filterMap_cons, ih]
    | some name =>
      simp [msgAttachLoop, hname, msgAttachTriple, List.filterMap_cons, ih, List.append_assoc]

lemma emlTriple_names (l : List Msg) :
    (l.filterMap emlAttachTriple).map (fun t => t.1) =
      l.filterMap (fun p =>
        if p.minfo.disposition == some "attachment" then p.minfo.filename else none) := by
  induction l with
  | nil => simp
  | cons p rest ih =>
    cases hdisp : (p.minfo.disposition == some "attachment") with
    | false =>
      have hd' : ¬(p.minfo.disposition = some "attachment") := by simpa using hdisp
      simp [List.filterMap_cons, emlAttachTriple, hdisp, hd', ih]
    | true =>
      have hd' : p.minfo.disposition = some "attachment" := by simpa using hdisp
      cases hname : p.minfo.filename with
      | none => simp [List.filterMap_cons, emlAttachTriple, hdisp, hd', hname, ih]
      | some name => simp [List.filterMap_cons, emlAttachTriple, hdisp, hd', hname, ih]

lemma msgTriple_names (l : List MsgAttachment) :
    (l.filterMap msgAttachTriple).map (fun t => t.1) =
      l.filterMap MsgAttachment.shortFilename := by
  induction l with
  | nil => simp
  | cons a rest ih =>
    cases hname : a.shortFilename with
    | none => simp [List.filterMap_cons, msgAttachTriple, hname, ih]
    | some name => simp [List.filterMap_cons, msgAttachTriple, hname, ih]

lemma msgTriple_types (l : List MsgAttachment) :
    (l.filterMap msgAttachTriple).map (fun t => t.2.2) =
      l.filterMap (fun a => a.shortFilename.map (fun n => pyStrOfOpt (guess_type0 n))) := by
  induction l with
  | nil => simp
  | cons a rest ih =>
    cases hname : a.shortFilename with
    | none => simp [List.filterMap_cons, msgAttachTriple, hname, ih]
    | some name => simp [List.filterMap_cons, msgAttachTriple, hname, ih]

lemma extract_metadata_err (hs : Headers) (md : Email) (e : PyErr)
    (hp : parsedate_to_datetime (hget hs "date" "") = Except.error e) :
    extract_metadata_from_eml_header hs md = Except.error e := by
  unfold extract_metadata_from_eml_header
  rw [hp]

lemma extract_metadata_spec (hs : Headers) (md md' : Email)
    (h : extract_metadata_from_eml_header hs md = Except.ok md') :
    ∃ ts, parsedate_to_datetime (hget hs "date" "") = Except.ok ts ∧
      md' = { md with
        received_on := ReceivedOn.dt ts,
        subject := hget hs "subject" "",
        author := [("name", (parseaddr (hget hs "from" "")).1),
                   ("smtp_address", (parseaddr (hget hs "from" "")).2)],
        sender := [("name", (parseaddr (hget hs "from" "")).1),
                   ("smtp_address", (parseaddr (hget hs "from" "")).2)],
        «to» := extract_address_list_from_eml hs "to",
        cc := extract_address_list_from_eml hs "cc" } := by
  unfold extract_metadata_from_eml_header at h
  cases hp : parsedate_to_datetime (hget hs "date" "") with
  | error e => rw [hp] at h; simp at h
  | ok ts =>
    rw [hp] at h
    refine ⟨ts, rfl, ?_⟩
    injection h with h'
    exact h'.symm

lemma emlBodyLoop_ok (l : List Msg) (b0 b : String)
    (h : emlBodyLoop l b0 = Except.ok b) :
    (l.filter isBodyTextPart = [] ∧ b = b0) ∨
    (∃ p, (l.filter isBodyTextPart).getLast? = some p ∧
      decodePartPayload p = Except.ok b) := by
  induction l generalizing b0 with
  | nil =>
    left
    refine ⟨rfl, ?_⟩
    simp [emlBodyLoop] at h
    exact h.symm
  | cons p rest ih =>
    cases hc : isBodyTextPart p with
    | false =>
      rw [emlBodyLoop, if_neg (by simp [hc])] at h
      rw [List.filter_cons_of_neg (by simp [hc])]
      exact ih b0 h
    | true =>
      rw [emlBodyLoop, if_pos (by simp [hc])] at h
      cases hd : decodePartPayload p with
      | error e => rw [hd] at h; simp at h
      | ok s =>
        rw [hd] at h
        rw [List.filter_cons_of_pos (by simp [hc])]
        rcases ih s h with ⟨hfil, hb⟩ | ⟨q, hql, hqd⟩
        · right
          refine ⟨p, ?_, ?_⟩
          · rw [hfil]; rfl
          · rw [hb]; exact hd
        · right
          refine ⟨q, ?_, hqd⟩
          cases hfl : rest.filter isBodyTextPart with
          | nil => rw [hfl] at hql; simp at hql
          | cons q1 qs => rw [hfl] at hql; rw [List.getLast?_cons_cons]; exact hql

lemma strictResult_err (c : String) (o : Option String) (err : PyErr)
    (h : strictResult c o = Except.error err) :
    ∃ m, err = PyErr.unicodeDecodeError m := by
  cases o with
  | some s => simp [strictResult] at h
  | none => simp [strictResult] at h; exact ⟨_, h.symm⟩

lemma pyDecode_ascii (bs : List Nat) :
    pyDecode "ascii" bs = strictResult "ascii" (ascii_opt bs) := rfl

lemma pyDecode_utf8 (bs : List Nat) :
    pyDecode "utf-8" bs = strictResult "utf-8" (utf8_opt bs) := rfl

lemma pyDecode_utf8sig (bs : List Nat) :
    pyDecode "utf-8-sig" bs = strictResult "utf-8-sig" (utf8sig_opt bs) := rfl

lemma pyDecode_latin1 (bs : List Nat) :
    pyDecode "latin-1" bs = strictResult "latin-1" (latin1_opt bs) := rfl

lemma pyDecode_cp1252 (bs : List Nat) :
    pyDecode "cp1252" bs = strictResult "cp1252" (cp1252_opt bs) := rfl

/-- Every codec in `ENCODINGS` is a registered codec, so the only exception a
decode attempt can raise is `UnicodeDecodeError` — exactly what the loop in
`decode_msg_body` catches. -/
lemma pyDecode_ENCODINGS_err (e : String) (he : e ∈ ENCODINGS) (bs : List Nat)
    (err : PyErr) (h : pyDecode e bs = Except.error err) :
    ∃ m, err = PyErr.unicodeDecodeError m := by
  have he' : e = "ascii" ∨ e = "utf-8" ∨ e = "utf-8-sig" ∨ e = "latin-1" ∨ e = "cp1252" := by
    simpa [ENCODINGS] using he
  rcases he' with rfl | rfl | rfl | rfl | rfl
  · exact strictResult_err _ _ _ ((pyDecode_ascii bs) ▸ h)
  · exact strictResult_err _ _ _ ((pyDecode_utf8 bs) ▸ h)
  · exact strictResult_err _ _ _ ((pyDecode_utf8sig bs) ▸ h)
  · exact strictResult_err _ _ _ ((pyDecode_latin1 bs) ▸ h)
  · exact strictResult_err _ _ _ ((pyDecode_cp1252 bs) ▸ h)

/-- The sequential-attempt loop returns the first successful decode, or the
lossy ascii fallback when every attempt fails, provided every listed codec can
only fail with `UnicodeDecodeError`. -/
lemma decode_msg_body_loop_eq (bs : List Nat) (l : List String)
    (hl : ∀ e ∈ l, ∀ err, pyDecode e bs = Except.error err →
      ∃ m, err = PyErr.unicodeDecodeError m) :
    decode_msg_body_loop bs l =
      Except.ok ((l.findSome? (fun e => (pyDecode e bs).toOption)).getD
        (ascii_ignore_decode bs)) := by
  induction l with
  | nil => simp [decode_msg_body_loop]
  | cons e rest ih =>
    cases hd : pyDecode e bs with
    | ok s =>
      rw [decode_msg_body_loop, hd]
      rw [List.findSome?_cons]
      simp [hd, Except.toOption]
    | error err =>
      obtain ⟨m, rfl⟩ := hl e (by simp) err hd
      rw [decode_msg_body_loop, hd]
      rw [List.findSome?_cons]
      simp only [hd, Except.toOption]
      exact ih (fun e' he' err' h' => hl e' (by simp [he']) err' h')

/-- Full characterization of a successful `EmlAdapter._decode_from_file`. -/
lemma eml_decode_from_file_ok (m : Msg) (ra : PyVal) (r : Email)
    (h : EmlAdapter._decode_from_file m ra = Except.ok r) :
    ∃ ts bodyStr,
      parsedate_to_datetime (hget m.minfo.headers "date" "") = Except.ok ts ∧
      extract_body_from_eml m = Except.ok bodyStr ∧
      r = { subject := hget m.minfo.headers "subject" "",
            body := bodyStr,
            received_on := ReceivedOn.dt ts,
            sender := [("name", (parseaddr (hget m.minfo.headers "from" "")).1),
                       ("smtp_address", (parseaddr (hget m.minfo.headers "from" "")).2)],
            author := [("name", (parseaddr (hget m.minfo.headers "from" "")).1),
                       ("smtp_address", (parseaddr (hget m.minfo.headers "from" "")).2)],
            «to» := extract_address_list_from_eml m.minfo.headers "to",
            cc := extract_address_list_from_eml m.minfo.headers "cc",
            attachment_names :=
              if pyIsTrue ra then
                ((Msg.walk m).filterMap emlAttachTriple).map (fun t => t.1)
              else [],
            attachment_binaries :=
              if pyIsTrue ra then
                ((Msg.walk m).filterMap emlAttachTriple).map (fun t => t.2.1)
              else [],
            attachment_types :=
              if pyIsTrue ra then
                ((Msg.walk m).filterMap emlAttachTriple).map (fun t => t.2.2)
              else [] } := by
  unfold EmlAdapter._decode_from_file at h
  cases hm : extract_metadata_from_eml_header m.minfo.headers initial_mail_data with
  | error e => rw [hm] at h; simp at h
  | ok md =>
    rw [hm] at h
    obtain ⟨ts, hts, hmd⟩ := extract_metadata_spec _ _ _ hm
    cases hb : extract_body_from_eml m with
    | error e => rw [hb] at h; simp at h
    | ok bodyStr =>
      rw [hb] at h
      refine ⟨ts, bodyStr, hts, rfl, ?_⟩
      injection h with h'
      subst h'
      subst hmd
      cases hra : pyIsTrue ra with
      | false => simp [hra, initial_mail_data]
      | true =>
        rw [if_pos (by simp [hra])]
        unfold extract_attachments_from_eml
        rw [emlAttachLoop_spec]
        simp [hra, initial_mail_data]

/-- Full characterization of a successful `MsgAdapter._decode_from_file`. -/
lemma msg_decode_from_file_ok (mi : MsgInput) (ra : PyVal) (r : Email)
    (h : MsgAdapter._decode_from_file mi ra = Except.ok r) :
    ∃ msgf ts bodyStr,
      Message_parse mi = Except.ok msgf ∧
      parsedate_to_datetime (hget msgf.header "date" "") = Except.ok ts ∧
      (match msgf.body with
       | none => bodyStr = ""
       | some bo => ∃ s, decode_msg_body bo ENCODINGS = Except.ok s ∧
           bodyStr = stripNulStr s) ∧
      r = { subject := hget msgf.header "subject" "",
            body := bodyStr,
            received_on := ReceivedOn.dt ts,
            sender := [("name", (parseaddr (hget msgf.header "from" "")).1),
                       ("smtp_address", (parseaddr (hget msgf.header "from" "")).2)],
            author := [("name", (parseaddr (hget msgf.header "from" "")).1),
                       ("smtp_address", (parseaddr (hget msgf.header "from" "")).2)],
            «to» := extract_address_list_from_eml msgf.header "to",
            cc := extract_address_list_from_eml msgf.header "cc",
            attachment_names :=
              if pyIsTrue ra then
                (msgf.attachments.filterMap msgAttachTriple).map (fun t => t.1)
              else [],
            attachment_binaries :=
              if pyIsTrue ra then
                (msgf.attachments.filterMap msgAttachTriple).map (fun t => t.2.1)
              else [],
            attachment_types :=
              if pyIsTrue ra then
                (msgf.attachments.filterMap msgAttachTriple).map (fun t => t.2.2)
              else [] } := by
  unfold MsgAdapter._decode_from_file at h
  cases hp : Message_parse mi with
  | error e => rw [hp] at h; simp at h
  | ok msgf =>
    rw [hp] at h
    dsimp only at h
    cases hm : extract_metadata_from_eml_header msgf.header initial_mail_data with
    | error e => rw [hm] at h; simp at h
    | ok md =>
      rw [hm] at h
      dsimp only at h
      obtain ⟨ts, hts, hmd⟩ := extract_metadata_spec _ _ _ hm
      cases hbo : msgf.body with
      | none =>
        rw [hbo] at h
        dsimp only at h
        refine ⟨msgf, ts, "", rfl, hts, by simp [hbo], ?_⟩
        injection h with h'
        subst h'
        subst hmd
        cases hra : pyIsTrue ra with
        | false => simp [hra, initial_mail_data]
        | true =>
          rw [if_pos (by simp [hra])]
          rw [msgAttachLoop_spec]
          simp [hra, initial_mail_data]
      | some bo =>
        rw [hbo] at h
        dsimp only at h
        cases hdb : decode_msg_body bo ENCODINGS with
        | error e => rw [hdb] at h; simp at h
        | ok s =>
          rw [hdb] at h
          dsimp only at h
          refine ⟨msgf, ts, stripNulStr s, rfl, hts, by simp [hbo]; exact ⟨s, hdb, rfl⟩, ?_⟩
          injection h with h'
          subst h'
          subst hmd
          cases hra : pyIsTrue ra with
          | false => simp [hra, initial_mail_data]
          | true =>
            rw [if_pos (by simp [hra])]
            rw [msgAttachLoop_spec]
            simp [hra, initial_mail_data]

/-! ## The claims -/

/-- C1: for every filename whose extension is neither `.eml` nor `.msg`,
`MailAdapter.__new__` raises the unsupported-format `ValueError` immediately;
the error propagates through the caller-side pipeline (it is never converted
to a null result) and no decode operation is attempted. -/
theorem claim_C1 (filename : String)
    (h1 : (splitext filename).2 ≠ ".eml") (h2 : (splitext filename).2 ≠ ".msg") :
    MailAdapter_new filename =
      Except.error (PyErr.valueError
        ("Unsupported mail extension " ++ (splitext filename).2 ++ " given.")) ∧
    ∀ (emlContent : Msg) (msgContent : MsgInput) (ra : PyVal),
      mail_from_file filename emlContent msgContent ra =
        Except.error (PyErr.valueError
          ("Unsupported mail extension " ++ (splitext filename).2 ++ " given.")) ∧
      ∀ result, mail_from_file filename emlContent msgContent ra ≠ Except.ok result := by
  have hn : MailAdapter_new filename =
      Except.error (PyErr.valueError
        ("Unsupported mail extension " ++ (splitext filename).2 ++ " given.")) := by
    unfold MailAdapter_new
    rw [if_neg]
    exact fun hc => hc.elim h1 h2
  refine ⟨hn, fun emlContent msgContent ra => ⟨?_, ?_⟩⟩
  · simp [mail_from_file, hn]
  · intro result
    simp [mail_from_file, hn]

/-- Witness for C1 at the concrete filename `mail.txt` (extension `.txt`). -/
theorem claim_C1_witness :
    MailAdapter_new "mail.txt" =
      Except.error (PyErr.valueError
        ("Unsupported mail extension " ++ (splitext "mail.txt").2 ++ " given.")) ∧
    mail_from_file "mail.txt" sampleSimpleEml sampleMsgInput (PyVal.pyBool true) =
      Except.error (PyErr.valueError
        ("Unsupported mail extension " ++ (splitext "mail.txt").2 ++ " given.")) := by
  have h := claim_C1 "mail.txt" (by decide) (by decide)
  exact ⟨h.1, (h.2 sampleSimpleEml sampleMsgInput (PyVal.pyBool true)).1⟩

/-- C2: whenever `_decode_from_file` raises internally, `EmlAdapter.decode`
returns `None` printing nothing, while `MsgAdapter.decode` returns `None`
after printing the exception — both swallow, and their visible failure
behavior differs. -/
theorem claim_C2 (m : Msg) (mi : MsgInput) (ra ra' : PyVal) (e e' : PyErr)
    (he : EmlAdapter._decode_from_file m ra = Except.error e)
    (he' : MsgAdapter._decode_from_file mi ra' = Except.error e') :
    EmlAdapter.decode m ra = (none, []) ∧
    MsgAdapter.decode mi ra' = (none, [pyErrMessage e']) ∧
    (MsgAdapter.decode mi ra').2 ≠ [] ∧ (EmlAdapter.decode m ra).2 = [] := by
  refine ⟨?_, ?_, ?_, ?_⟩ <;> simp [EmlAdapter.decode, MsgAdapter.decode, he, he']

/-- Witness for C2: a message with no `Date` header makes both decoders fail
internally (the date parse raises); the text decoder is silent, the
compound-binary decoder prints the cause. -/
theorem claim_C2_witness :
    EmlAdapter.decode sampleNoDateEml (PyVal.pyBool true) = (none, []) ∧
    MsgAdapter.decode sampleMsgNoDate (PyVal.pyBool true) =
      (none, ["Invalid date value or format \"\""]) := by
  have h := claim_C2 sampleNoDateEml sampleMsgNoDate (PyVal.pyBool true) (PyVal.pyBool true)
    (PyErr.valueError "Invalid date value or format \"\"")
    (PyErr.valueError "Invalid date value or format \"\"") rfl rfl
  exact ⟨h.1, h.2.1⟩

/-- C3: for a multipart message, a successfully extracted body is the decoded
content of the LAST walked part whose main type is `"text"` and whose
disposition is not `"attachment"` (last-wins). -/
theorem claim_C3 (m : Msg) (b : String)
    (hm : m.is_multipart = true)
    (hb : extract_body_from_eml m = Except.ok b)
    (hne : (Msg.walk m).filter isBodyTextPart ≠ []) :
    ∃ p, ((Msg.walk m).filter isBodyTextPart).getLast? = some p ∧
      decodePartPayload p = Except.ok b := by
  have h : emlBodyLoop (Msg.walk m) "" = Except.ok b := by
    unfold extract_body_from_eml at hb
    rw [if_pos (by simp [hm])] at hb
    exact hb
  rcases emlBodyLoop_ok _ _ _ h with ⟨hfil, _⟩ | ⟨p, hp, hd⟩
  · exact absurd hfil hne
  · exact ⟨p, hp, hd⟩

/-- Witness for C3: the two-text-part message with bodies `"first"` then
`"second"` decodes to `"second"`, and that is the decode of the last eligible
part. -/
theorem claim_C3_witness :
    extract_body_from_eml sampleMultiEml = Except.ok "second" ∧
    ∃ p, ((Msg.walk sampleMultiEml).filter isBodyTextPart).getLast? = some p ∧
      decodePartPayload p = Except.ok "second" := by
  refine ⟨rfl, claim_C3 sampleMultiEml "second" rfl rfl ?_⟩
  intro hc
  have he : (Msg.walk sampleMultiEml).filter isBodyTextPart =
      [textPart [102, 105, 114, 115, 116], textPart [115, 101, 99, 111, 110, 100]] := rfl
  rw [he] at hc
  exact List.noConfusion hc

/-- C10: the charset the text decoder uses is the value at position 1 of the
part's `get_params()` list whenever that list has at least two entries, and
`"utf-8"` otherwise — a positional lookup, not a search for a parameter named
`charset`. -/
theorem claim_C10 (ps : List (String × String)) :
    (∀ h : 1 < ps.length, get_charset ps = (ps.get ⟨1, h⟩).2) ∧
    (ps.length ≤ 1 → get_charset ps = "utf-8") := by
  constructor
  · intro h
    unfold get_charset
    rw [List.get?_eq_get h]
  · intro h
    unfold get_charset
    rw [List.get?_eq_none.mpr h]

/-- Witness for C10: with two parameters the second one's value wins (even
when a parameter literally named `charset` sits at a later position); with
fewer the result is `"utf-8"`. -/
theorem claim_C10_witness :
    get_charset [("text/plain", ""), ("charset", "iso-8859-1")] = "iso-8859-1" ∧
    get_charset [("text/plain", "")] = "utf-8" ∧
    get_charset [("text/plain", ""), ("format", "flowed"), ("charset", "x")] = "flowed" := by
  refine ⟨?_, ?_, rfl⟩
  · exact (claim_C10 [("text/plain", ""), ("charset", "iso-8859-1")]).1 (by decide)
  · exact (claim_C10 [("text/plain", "")]).2 (by decide)

/-- Helper: a non-`None` first component of `EmlAdapter.decode` comes from a
successful `_decode_from_file`. -/
lemma eml_decode_some (m : Msg) (ra : PyVal) (r : Email)
    (hr : (EmlAdapter.decode m ra).1 = some r) :
    EmlAdapter._decode_from_file m ra = Except.ok r := by
  cases hd : EmlAdapter._decode_from_file m ra with
  | error e => simp [EmlAdapter.decode, hd] at hr
  | ok res =>
    simp [EmlAdapter.decode, hd] at hr
    exact congrArg Except.ok hr

/-- Helper: same for `MsgAdapter.decode`. -/
lemma msg_decode_some (mi : MsgInput) (ra : PyVal) (r : Email)
    (hr : (MsgAdapter.decode mi ra).1 = some r) :
    MsgAdapter._decode_from_file mi ra = Except.ok r := by
  cases hd : MsgAdapter._decode_from_file mi ra with
  | error e => simp [MsgAdapter.decode, hd] at hr
  | ok res =>
    simp [MsgAdapter.decode, hd] at hr
    exact congrArg Except.ok hr

def sampleTs : Timestamp :=
  { day := 5, month := 10, year := 2020, hour := 10, minute := 0, second := 0 }

/-- The record `EmlAdapter.decode sampleSimpleEml True` produces. -/
def sampleSimpleEmlRecord : Email :=
  { subject := "Hi", body := "hello", received_on := ReceivedOn.dt sampleTs,
    sender := [("name", "A"), ("smtp_address", "a@x.com")],
    author := [("name", "A"), ("smtp_address", "a@x.com")],
    «to» := [[("name", "B"), ("smtp_address", "b@x.com")]], cc := [],
    attachment_names := [], attachment_binaries := [], attachment_types := [] }

/-- The record `MsgAdapter.decode sampleMsgInput True` produces. -/
def sampleMsgRecord : Email :=
  { subject := "Hi", body := "hi", received_on := ReceivedOn.dt sampleTs,
    sender := [("name", "A"), ("smtp_address", "a@x.com")],
    author := [("name", "A"), ("smtp_address", "a@x.com")],
    «to» := [], cc := [],
    attachment_names := ["weird.zzz", "r.pdf"],
    attachment_binaries := [some [9, 9], some [2]],
    attachment_types := ["None", "application/pdf"] }

/-- The record `MsgAdapter.decode sampleMsgInput None` produces (attachments
not read). -/
def sampleMsgNoReadRecord : Email :=
  { subject := "Hi", body := "hi", received_on := ReceivedOn.dt sampleTs,
    sender := [("name", "A"), ("smtp_address", "a@x.com")],
    author := [("name", "A"), ("smtp_address", "a@x.com")],
    «to» := [], cc := [],
    attachment_names := [], attachment_binaries := [], attachment_types := [] }

/-- The record `EmlAdapter.decode sampleAttachEml True` produces. -/
def sampleAttachEmlRecord : Email :=
  { subject := "Hi", body := "hello", received_on := ReceivedOn.dt sampleTs,
    sender := [("name", "A"), ("smtp_address", "a@x.com")],
    author := [("name", "A"), ("smtp_address", "a@x.com")],
    «to» := [], cc := [],
    attachment_names := ["f.pdf"],
    attachment_binaries := [some [1, 2, 3]],
    attachment_types := ["application/pdf"] }

/-- The record `EmlAdapter.decode sampleAttachEml (pyInt 1)` produces: the
truthy non-`True` argument suppresses attachment reading. -/
def sampleAttachNoReadRecord : Email :=
  { subject := "Hi", body := "hello", received_on := ReceivedOn.dt sampleTs,
    sender := [("name", "A"), ("smtp_address", "a@x.com")],
    author := [("name", "A"), ("smtp_address", "a@x.com")],
    «to» := [], cc := [],
    attachment_names := [], attachment_binaries := [], attachment_types := [] }

/-- C4 (amended): when the `Date` header is absent or unparseable the date
parser raises, the whole decode is swallowed into a null result (no record is
produced, so `received_on` never holds a placeholder for a delivered record);
when the header parses, the delivered record's `received_on` is the parsed
timestamp. -/
theorem claim_C4 (m : Msg) (ra : PyVal) :
    ((∃ e, parsedate_to_datetime (hget m.minfo.headers "date" "") = Except.error e) →
      (EmlAdapter.decode m ra).1 = none) ∧
    (∀ r, (EmlAdapter.decode m ra).1 = some r →
      ∃ ts, parsedate_to_datetime (hget m.minfo.headers "date" "") = Except.ok ts ∧
        r.received_on = ReceivedOn.dt ts) := by
  constructor
  · rintro ⟨e, he⟩
    have hd : EmlAdapter._decode_from_file m ra = Except.error e := by
      unfold EmlAdapter._decode_from_file
      rw [extract_metadata_err _ _ _ he]
    simp [EmlAdapter.decode, hd]
  · intro r hr
    obtain ⟨ts, bodyStr, hts, hbody, hres⟩ :=
      eml_decode_from_file_ok _ _ _ (eml_decode_some _ _ _ hr)
    exact ⟨ts, hts, by rw [hres]⟩

/-- C4 counterexample: for the message with no `Date` header at all, decoding
does NOT produce a record with a placeholder `received_on` — it produces no
record (`None`), refuting the claim as stated. -/
theorem claim_C4_counterexample :
    hget sampleNoDateEml.minfo.headers "date" "" = "" ∧
    EmlAdapter.decode sampleNoDateEml (PyVal.pyBool true) = (none, []) := ⟨rfl, rfl⟩

/-- Witness for C4 at the no-date message (null result) and at the dated
message (parsed timestamp in `received_on`). -/
theorem claim_C4_witness :
    (EmlAdapter.decode sampleNoDateEml (PyVal.pyBool true)).1 = none ∧
    (∃ ts, parsedate_to_datetime (hget sampleSimpleEml.minfo.headers "date" "") =
        Except.ok ts ∧ sampleSimpleEmlRecord.received_on = ReceivedOn.dt ts) := by
  constructor
  · exact (claim_C4 sampleNoDateEml (PyVal.pyBool true)).1
      ⟨PyErr.valueError "Invalid date value or format \"\"", rfl⟩
  · exact (claim_C4 sampleSimpleEml (PyVal.pyBool true)).2 sampleSimpleEmlRecord rfl

/-- C5 (amended): for an attachment whose extension has no MIME mapping the
recorded content type is the string `"None"` — the stringification of the
absent lookup result, not the word `"unknown"` — and the operation does not
fail; mapped extensions record the mapped content-type string. -/
theorem claim_C5 (mi : MsgInput) (msgf : MsgFileStruct) (ra : PyVal) (r : Email)
    (hp : Message_parse mi = Except.ok msgf)
    (hr : (MsgAdapter.decode mi ra).1 = some r)
    (hra : pyIsTrue ra = true) :
    r.attachment_types = msgf.attachments.filterMap
      (fun a => a.shortFilename.map (fun n => pyStrOfOpt (guess_type0 n))) ∧
    (∀ n, guess_type0 n = none → pyStrOfOpt (guess_type0 n) = "None") ∧
    (∀ n t, guess_type0 n = some t → pyStrOfOpt (guess_type0 n) = t) := by
  obtain ⟨msgf', ts, bodyStr, hp', hts, hbody, hres⟩ :=
    msg_decode_from_file_ok _ _ _ (msg_decode_some _ _ _ hr)
  rw [hp] at hp'
  injection hp' with hp''
  subst hp''
  refine ⟨?_, ?_, ?_⟩
  · simp [hres, hra, msgTriple_types]
  · intro n hn
    simp [hn, pyStrOfOpt]
  · intro n t hn
    simp [hn, pyStrOfOpt]

/-- C5 counterexample: the `.zzz` extension has no mapping and the recorded
type is `"None"`, not the sentinel `"unknown"` the claim names. -/
theorem claim_C5_counterexample :
    guess_type0 "weird.zzz" = none ∧
    ((MsgAdapter.decode sampleMsgInput (PyVal.pyBool true)).1.map Email.attachment_types) =
      some ["None", "application/pdf"] ∧
    ("None" : String) ≠ "unknown" := ⟨rfl, rfl, by decide⟩

/-- Witness for C5 at the concrete `.msg` sample. -/
theorem claim_C5_witness :
    sampleMsgRecord.attachment_types =
      sampleMsgFile.attachments.filterMap
        (fun a => a.shortFilename.map (fun n => pyStrOfOpt (guess_type0 n))) ∧
    pyStrOfOpt (guess_type0 "weird.zzz") = "None" := by
  have h := claim_C5 sampleMsgInput sampleMsgFile (PyVal.pyBool true) sampleMsgRecord rfl rfl rfl
  exact ⟨h.1, h.2.1 "weird.zzz" rfl⟩

/-- C6: `decode_msg_body` on a byte body never raises; it returns the first
successful decode over the candidate encodings in the fixed order ascii,
utf-8, utf-8-sig, latin-1, cp1252, falling back to the lossy ascii decode
when all fail; and `MsgAdapter` stores that result with leading/trailing NUL
characters stripped. -/
theorem claim_C6 (bs : List Nat) :
    (∃ s, decode_msg_body (Sum.inr bs) ENCODINGS = Except.ok s) ∧
    decode_msg_body (Sum.inr bs) ENCODINGS =
      Except.ok ((ENCODINGS.findSome? (fun e => (pyDecode e bs).toOption)).getD
        (ascii_ignore_decode bs)) ∧
    (∀ (mi : MsgInput) (msgf : MsgFileStruct) (ra : PyVal) (r : Email),
      Message_parse mi = Except.ok msgf → msgf.body = some (Sum.inr bs) →
      (MsgAdapter.decode mi ra).1 = some r →
      ∃ s, decode_msg_body (Sum.inr bs) ENCODINGS = Except.ok s ∧
        r.body = stripNulStr s) := by
  have h2 : decode_msg_body (Sum.inr bs) ENCODINGS =
      Except.ok ((ENCODINGS.findSome? (fun e => (pyDecode e bs).toOption)).getD
        (ascii_ignore_decode bs)) := by
    show decode_msg_body_loop bs ENCODINGS = _
    exact decode_msg_body_loop_eq bs ENCODINGS
      (fun e he err h => pyDecode_ENCODINGS_err e he bs err h)
  refine ⟨⟨_, h2⟩, h2, ?_⟩
  intro mi msgf ra r hp hbo hr
  obtain ⟨msgf', ts, bodyStr, hp', hts, hbody, hres⟩ :=
    msg_decode_from_file_ok _ _ _ (msg_decode_some _ _ _ hr)
  rw [hp] at hp'
  injection hp' with hp''
  subst hp''
  rw [hbo] at hbody
  obtain ⟨s, hs, hbs⟩ := hbody
  refine ⟨s, hs, ?_⟩
  rw [hres]
  exact hbs

/-- Witness for C6 at the NUL-padded byte body `[0, 104, 105, 0]`: ascii is
the first encoding to succeed (giving `"\x00hi\x00"`), and the stored body of
the decoded sample is the NUL-stripped result. -/
theorem claim_C6_witness :
    decode_msg_body (Sum.inr [0, 104, 105, 0]) ENCODINGS =
      Except.ok ((ENCODINGS.findSome?
        (fun e => (pyDecode e [0, 104, 105, 0]).toOption)).getD
        (ascii_ignore_decode [0, 104, 105, 0])) ∧
    (∃ s, decode_msg_body (Sum.inr [0, 104, 105, 0]) ENCODINGS = Except.ok s ∧
      sampleMsgRecord.body = stripNulStr s) := by
  refine ⟨(claim_C6 [0, 104, 105, 0]).2.1, ?_⟩
  exact (claim_C6 [0, 104, 105, 0]).2.2 sampleMsgInput sampleMsgFile
    (PyVal.pyBool true) sampleMsgRecord rfl rfl rfl

/-- C7: in every record either decoder delivers, the three attachment lists
have equal length and are index-aligned — all three are projections of ONE
per-attachment triple list, whose `i`-th entry holds the filename, decoded
payload and declared content type of the same `i`-th recorded attachment —
and the recorded names are exactly the resolvable filenames of the
attachment parts/objects: parts with no filename contribute to none of the
three lists. -/
theorem claim_C7 (m : Msg) (mi : MsgInput) (msgf : MsgFileStruct) (ra ra' : PyVal)
    (r r' : Email)
    (hr : (EmlAdapter.decode m ra).1 = some r)
    (hp : Message_parse mi = Except.ok msgf)
    (hr' : (MsgAdapter.decode mi ra').1 = some r') :
    (r.attachment_names.length = r.attachment_binaries.length ∧
     r.attachment_types.length = r.attachment_binaries.length ∧
     r.attachment_names = (if pyIsTrue ra then
       (Msg.walk m).filterMap (fun p =>
         if p.minfo.disposition == some "attachment" then p.minfo.filename else none)
       else []) ∧
     r.attachment_names = (if pyIsTrue ra then
       ((Msg.walk m).filterMap emlAttachTriple).map (fun t => t.1) else []) ∧
     r.attachment_binaries = (if pyIsTrue ra then
       ((Msg.walk m).filterMap emlAttachTriple).map (fun t => t.2.1) else []) ∧
     r.attachment_types = (if pyIsTrue ra then
       ((Msg.walk m).filterMap emlAttachTriple).map (fun t => t.2.2) else [])) ∧
    (r'.attachment_names.length = r'.attachment_binaries.length ∧
     r'.attachment_types.length = r'.attachment_binaries.length ∧
     r'.attachment_names = (if pyIsTrue ra' then
       msgf.attachments.filterMap MsgAttachment.shortFilename else []) ∧
     r'.attachment_names = (if pyIsTrue ra' then
       (msgf.attachments.filterMap msgAttachTriple).map (fun t => t.1) else []) ∧
     r'.attachment_binaries = (if pyIsTrue ra' then
       (msgf.attachments.filterMap msgAttachTriple).map (fun t => t.2.1) else []) ∧
     r'.attachment_types = (if pyIsTrue ra' then
       (msgf.attachments.filterMap msgAttachTriple).map (fun t => t.2.2) else [])) := by
  obtain ⟨ts, bodyStr, hts, hbody, hres⟩ :=
    eml_decode_from_file_ok _ _ _ (eml_decode_some _ _ _ hr)
  obtain ⟨msgf', ts', bodyStr', hp', hts', hbody', hres'⟩ :=
    msg_decode_from_file_ok _ _ _ (msg_decode_some _ _ _ hr')
  rw [hp] at hp'
  injection hp' with hp''
  subst hp''
  constructor
  · refine ⟨?_, ?_, ?_, ?_, ?_, ?_⟩
    · cases hra : pyIsTrue ra <;> simp [hres, hra]
    · cases hra : pyIsTrue ra <;> simp [hres, hra]
    · cases hra : pyIsTrue ra <;> simp [hres, hra, emlTriple_names]
    · cases hra : pyIsTrue ra <;> simp [hres, hra]
    · cases hra : pyIsTrue ra <;> simp [hres, hra]
    · cases hra : pyIsTrue ra <;> simp [hres, hra]
  · refine ⟨?_, ?_, ?_, ?_, ?_, ?_⟩
    · cases hra : pyIsTrue ra' <;> simp [hres', hra]
    · cases hra : pyIsTrue ra' <;> simp [hres', hra]
    · cases hra : pyIsTrue ra' <;> simp [hres', hra, msgTriple_names]
    · cases hra : pyIsTrue ra' <;> simp [hres', hra]
    · cases hra : pyIsTrue ra' <;> simp [hres', hra]
    · cases hra : pyIsTrue ra' <;> simp [hres', hra]

/-- Witness for C7 at the attachment-bearing samples: one named and one
nameless attachment on the eml side give a single aligned
name/binary/type entry; the msg side drops its nameless attachment from all
three lists while keeping its two named ones aligned. -/
theorem claim_C7_witness :
    sampleAttachEmlRecord.attachment_names = ["f.pdf"] ∧
    sampleAttachEmlRecord.attachment_binaries = [some [1, 2, 3]] ∧
    sampleAttachEmlRecord.attachment_types = ["application/pdf"] ∧
    sampleAttachEmlRecord.attachment_names.length =
      sampleAttachEmlRecord.attachment_binaries.length ∧
    sampleMsgRecord.attachment_names = ["weird.zzz", "r.pdf"] ∧
    sampleMsgRecord.attachment_binaries = [some [9, 9], some [2]] ∧
    sampleMsgRecord.attachment_types = ["None", "application/pdf"] ∧
    sampleMsgRecord.attachment_types.length =
      sampleMsgRecord.attachment_binaries.length := by
  have h := claim_C7 sampleAttachEml sampleMsgInput sampleMsgFile
    (PyVal.pyBool true) (PyVal.pyBool true) sampleAttachEmlRecord sampleMsgRecord
    rfl rfl rfl
  exact ⟨h.1.2.2.1, h.1.2.2.2.2.1, h.1.2.2.2.2.2, h.1.1,
         h.2.2.2.1, h.2.2.2.2.2.1, h.2.2.2.2.2.2, h.2.2.1⟩

/-- C8: in every record either decoder delivers, `sender` and `author` are
the same identity dictionary, built from `parseaddr` of the one `From`
header. -/
theorem claim_C8 (m : Msg) (mi : MsgInput) (msgf : MsgFileStruct) (ra ra' : PyVal)
    (r r' : Email)
    (hr : (EmlAdapter.decode m ra).1 = some r)
    (hp : Message_parse mi = Except.ok msgf)
    (hr' : (MsgAdapter.decode mi ra').1 = some r') :
    (r.sender = r.author ∧
     r.author = [("name", (parseaddr (hget m.minfo.headers "from" "")).1),
                 ("smtp_address", (parseaddr (hget m.minfo.headers "from" "")).2)]) ∧
    (r'.sender = r'.author ∧
     r'.author = [("name", (parseaddr (hget msgf.header "from" "")).1),
                  ("smtp_address", (parseaddr (hget msgf.header "from" "")).2)]) := by
  obtain ⟨ts, bodyStr, hts, hbody, hres⟩ :=
    eml_decode_from_file_ok _ _ _ (eml_decode_some _ _ _ hr)
  obtain ⟨msgf', ts', bodyStr', hp', hts', hbody', hres'⟩ :=
    msg_decode_from_file_ok _ _ _ (msg_decode_some _ _ _ hr')
  rw [hp] at hp'
  injection hp' with hp''
  subst hp''
  exact ⟨⟨by rw [hres], by rw [hres]⟩, ⟨by rw [hres'], by rw [hres']⟩⟩

/-- Witness for C8: the message with `From: A <a@x.com>` yields
`author.name = "A"`, `author.smtp_address = "a@x.com"` and
`sender == author`, on both decoders. -/
theorem claim_C8_witness :
    sampleSimpleEmlRecord.sender = sampleSimpleEmlRecord.author ∧
    sampleSimpleEmlRecord.author = [("name", "A"), ("smtp_address", "a@x.com")] ∧
    sampleMsgRecord.sender = sampleMsgRecord.author ∧
    sampleMsgRecord.author = [("name", "A"), ("smtp_address", "a@x.com")] := by
  have h := claim_C8 sampleSimpleEml sampleMsgInput sampleMsgFile
    (PyVal.pyBool true) (PyVal.pyBool true) sampleSimpleEmlRecord sampleMsgRecord
    rfl rfl rfl
  exact ⟨h.1.1, h.1.2, h.2.1, h.2.2⟩

/-- C9: whenever the `read_attachments` argument is not the literal `True`
(this includes `False`, `None`, and truthy non-`True` values such as the
integer 1, since the source tests `read_attachments is True`), the delivered
record's three attachment lists are empty regardless of message content. -/
theorem claim_C9 (m : Msg) (mi : MsgInput) (ra ra' : PyVal) (r r' : Email)
    (hra : ra ≠ PyVal.pyBool true) (hra' : ra' ≠ PyVal.pyBool true)
    (hr : (EmlAdapter.decode m ra).1 = some r)
    (hr' : (MsgAdapter.decode mi ra').1 = some r') :
    r.attachment_names = [] ∧ r.attachment_binaries = [] ∧ r.attachment_types = [] ∧
    r'.attachment_names = [] ∧ r'.attachment_binaries = [] ∧
    r'.attachment_types = [] := by
  have hfalse : ∀ v : PyVal, v ≠ PyVal.pyBool true → pyIsTrue v = false := by
    intro v hv
    cases v with
    | pyBool b =>
      cases b with
      | true => exact absurd rfl hv
      | false => rfl
    | pyNone => rfl
    | pyInt n => rfl
    | pyStr s => rfl
  obtain ⟨ts, bodyStr, hts, hbody, hres⟩ :=
    eml_decode_from_file_ok _ _ _ (eml_decode_some _ _ _ hr)
  obtain ⟨msgf', ts', bodyStr', hp', hts', hbody', hres'⟩ :=
    msg_decode_from_file_ok _ _ _ (msg_decode_some _ _ _ hr')
  refine ⟨?_, ?_, ?_, ?_, ?_, ?_⟩ <;>
    simp [hres, hres', hfalse ra hra, hfalse ra' hra']

/-- Witness for C9: the attachment-bearing samples decoded with the truthy
integer 1 (eml side) and with `None` (msg side) both deliver records with
empty attachment lists. -/
theorem claim_C9_witness :
    sampleAttachNoReadRecord.attachment_names = [] ∧
    sampleAttachNoReadRecord.attachment_binaries = [] ∧
    sampleMsgNoReadRecord.attachment_names = [] ∧
    sampleMsgNoReadRecord.attachment_types = [] := by
  have h := claim_C9 sampleAttachEml sampleMsgInput (PyVal.pyInt 1) PyVal.pyNone
    sampleAttachNoReadRecord sampleMsgNoReadRecord
    (by decide) (by decide) rfl rfl
  exact ⟨h.1, h.2.1, h.2.2.2.1, h.2.2.2.2.2⟩
